import Mathlib

/-
  Verification development for the idbuild-uae-platform repository.

  The core under study is the project-status state machine and the bid
  ledger that the HTTP routes in the repository expose
  (PATCH /projects/:id/activate, /cancel, /extend-deadline, /status,
  and the bid submit/accept/reject/withdraw operations), together with
  two frontend components that are present verbatim in the repository:
  the ApiService request wrapper and the AuthProvider logout handler.
-/

namespace IdBuild

/-- Modelled from the spec: the seven project lifecycle states of the
ProjectLifecycle component (the controller implementing it is not part of
the available sources; only its routes are). -/
inductive ProjectStatus where
  | draft
  | active
  | bidding_closed
  | awarded
  | completed
  | cancelled
  | expired
deriving DecidableEq, Repr

/-- Modelled from the spec: the four bid states of the BidLedger component. -/
inductive BidStatus where
  | pending
  | accepted
  | rejected
  | withdrawn
deriving DecidableEq, Repr

/-- Modelled from the spec: the error taxonomy of the core (section 7). -/
inductive BidError where
  | validationError
  | invalidStateTransition
  | conflictError
  | duplicateBidError
  | notFoundError
deriving DecidableEq, Repr

/-- Modelled from the spec: a Project record, restricted to the fields the
lifecycle operations read and write (id, owner, bidding deadline as a
timestamp, status). -/
structure Project where
  id : Nat
  ownerId : Nat
  biddingDeadline : Nat
  status : ProjectStatus
deriving DecidableEq, Repr

/-- Modelled from the spec: a Bid record (id, project reference, contractor,
amount, timeline in days, status). -/
structure Bid where
  id : Nat
  projectId : Nat
  contractorId : Nat
  amount : Int
  timeline : Int
  status : BidStatus
deriving DecidableEq, Repr

/-- Modelled from the spec: the shared mutable state of one project together
with its bid set, the unit over which the serialized operations act. -/
structure LedgerState where
  project : Project
  bids : List Bid
deriving DecidableEq, Repr

/-- Terminal project states: completed, cancelled, expired (section 4.1). -/
def ProjectStatus.isTerminal : ProjectStatus → Bool
  | .completed => true
  | .cancelled => true
  | .expired => true
  | _ => false

/-- A live (non-terminal) bid: pending or accepted. -/
def Bid.isLive (b : Bid) : Bool :=
  match b.status with
  | .pending => true
  | .accepted => true
  | _ => false

/-- Modelled from the spec: the transition table of section 4.1; all pairs
not listed there are rejected. -/
def allowedEdge : ProjectStatus → ProjectStatus → Bool
  | .draft, .active => true
  | .active, .bidding_closed => true
  | .active, .cancelled => true
  | .active, .expired => true
  | .bidding_closed, .awarded => true
  | .bidding_closed, .cancelled => true
  | .bidding_closed, .expired => true
  | .awarded, .completed => true
  | .awarded, .cancelled => true
  | _, _ => false

/-- Modelled from the spec: activate(project); fails with
InvalidStateTransition if not in draft, with ValidationError if the deadline
is not strictly in the future. -/
def activate (now : Nat) (p : Project) : Except BidError Project :=
  if p.status ≠ ProjectStatus.draft then .error .invalidStateTransition
  else if p.biddingDeadline ≤ now then .error .validationError
  else .ok { p with status := .active }

/-- Modelled from the spec: extendDeadline(project, newDeadline); fails with
ValidationError if newDeadline ≤ current deadline or ≤ now, and is allowed
only while active. -/
def extendDeadline (now : Nat) (p : Project) (newDeadline : Nat) :
    Except BidError Project :=
  if newDeadline ≤ p.biddingDeadline ∨ newDeadline ≤ now then
    .error .validationError
  else if p.status ≠ ProjectStatus.active then .error .invalidStateTransition
  else .ok { p with biddingDeadline := newDeadline }

/-- Modelled from the spec: close(project); allowed from active, idempotent
if already bidding_closed. -/
def close (p : Project) : Except BidError Project :=
  match p.status with
  | .active => .ok { p with status := .bidding_closed }
  | .bidding_closed => .ok p
  | _ => .error .invalidStateTransition

/-- Modelled from the spec: the generic status-update interface
(PATCH /projects/:id/status); a transition is applied only when it is a
defined edge of the section 4.1 table, every other request is rejected. -/
def updateStatus (p : Project) (target : ProjectStatus) :
    Except BidError Project :=
  if allowedEdge p.status target then .ok { p with status := target }
  else .error .invalidStateTransition

/-- Modelled from the spec: submit(project, bidderId, amount, timeline);
fails with InvalidStateTransition unless the project is active and now is
before the bidding deadline, with ValidationError if amount ≤ 0 or
timeline ≤ 0, with DuplicateBidError if the bidder already has a live bid;
otherwise appends a fresh pending bid (newId is the storage-assigned id). -/
def submit (now : Nat) (st : LedgerState) (bidderId : Nat)
    (amount timeline : Int) (newId : Nat) : Except BidError LedgerState :=
  if ¬ (st.project.status = ProjectStatus.active ∧
        now < st.project.biddingDeadline) then
    .error .invalidStateTransition
  else if amount ≤ 0 ∨ timeline ≤ 0 then .error .validationError
  else if st.bids.any (fun b => b.contractorId == bidderId && b.isLive) then
    .error .duplicateBidError
  else
    .ok { st with
          bids := st.bids ++
            [⟨newId, st.project.id, bidderId, amount, timeline, .pending⟩] }

/-- The per-bid update applied by a successful withdraw: the target bid
becomes withdrawn, every other bid is untouched. -/
def withdrawUpdate (bidId : Nat) (c : Bid) : Bid :=
  if c.id == bidId then { c with status := .withdrawn } else c

/-- Modelled from the spec: withdraw(bid); allowed only while the bid is
pending, fails with InvalidStateTransition otherwise. -/
def withdraw (st : LedgerState) (bidId : Nat) : Except BidError LedgerState :=
  match st.bids.find? (fun b => b.id == bidId) with
  | none => .error .notFoundError
  | some b =>
    if b.status = BidStatus.pending then
      .ok { st with bids := st.bids.map (withdrawUpdate bidId) }
    else .error .invalidStateTransition

/-- The per-bid update applied by a successful reject: the target bid
becomes rejected, every other bid is untouched. -/
def rejectUpdate (bidId : Nat) (c : Bid) : Bid :=
  if c.id == bidId then { c with status := .rejected } else c

/-- Modelled from the spec: reject(bid); allowed only while pending,
idempotent when already rejected. -/
def reject (st : LedgerState) (bidId : Nat) : Except BidError LedgerState :=
  match st.bids.find? (fun b => b.id == bidId) with
  | none => .error .notFoundError
  | some b =>
    match b.status with
    | .pending => .ok { st with bids := st.bids.map (rejectUpdate bidId) }
    | .rejected => .ok st
    | _ => .error .invalidStateTransition

/-- The per-bid update applied by a successful accept: the target bid
becomes accepted, every other pending bid becomes rejected. -/
def acceptUpdate (bidId : Nat) (c : Bid) : Bid :=
  if c.id == bidId then { c with status := .accepted }
  else if c.status = BidStatus.pending then { c with status := .rejected }
  else c

/-- Modelled from the spec: accept(project, bidId), the serialized
read-modify-write of sections 4.2 and 5. The conditional write checks first
that no bid of the project is already accepted (a caller losing the race
observes ConflictError), then that the project is in bidding_closed; on
success the target bid becomes accepted, every other pending bid becomes
rejected, and the project moves to awarded, all in the single returned
state. -/
def accept (st : LedgerState) (bidId : Nat) : Except BidError LedgerState :=
  if st.bids.any (fun b => b.status == BidStatus.accepted) then
    .error .conflictError
  else if st.project.status ≠ ProjectStatus.bidding_closed then
    .error .invalidStateTransition
  else
    match st.bids.find? (fun b => b.id == bidId) with
    | none => .error .notFoundError
    | some b =>
      if b.status = BidStatus.pending then
        .ok { project := { st.project with status := .awarded },
              bids := st.bids.map (acceptUpdate bidId) }
      else .error .invalidStateTransition

/-- Modelled from the spec: award(project, bid) delegates to
BidLedger.accept. -/
def award (st : LedgerState) (bidId : Nat) : Except BidError LedgerState :=
  accept st bidId

/-- The per-bid update applied by a successful cancel: every pending or
accepted bid becomes rejected, the rest are untouched. -/
def cancelUpdate (b : Bid) : Bid :=
  if b.status = BidStatus.pending ∨ b.status = BidStatus.accepted then
    { b with status := .rejected }
  else b

/-- Modelled from the spec: cancel(project, reason); allowed from any
non-terminal state, fails with ValidationError if the reason is empty;
every pending or accepted bid of the project is marked rejected. -/
def cancel (st : LedgerState) (reason : String) :
    Except BidError LedgerState :=
  if st.project.status.isTerminal then .error .invalidStateTransition
  else if reason = "" then .error .validationError
  else
    .ok { project := { st.project with status := .cancelled },
          bids := st.bids.map cancelUpdate }

/-- Modelled from the spec: the periodic deadline sweep; it expires a
project that is active or bidding_closed, past its deadline and without an
accepted bid, and is a no-op otherwise (idempotent, never fires on an
awarded or completed project). -/
def expireSweep (now : Nat) (st : LedgerState) : LedgerState :=
  if (st.project.status = ProjectStatus.active ∨
      st.project.status = ProjectStatus.bidding_closed) ∧
     st.project.biddingDeadline ≤ now ∧
     ¬ st.bids.any (fun b => b.status == BidStatus.accepted) then
    { st with project := { st.project with status := .expired } }
  else st

/-- Number of accepted bids in a bid list. -/
def acceptedCount (bids : List Bid) : Nat :=
  bids.countP (fun b => b.status == BidStatus.accepted)

/-- The at-most-one-accepted-bid invariant on a ledger state. -/
def atMostOneAccepted (st : LedgerState) : Prop :=
  acceptedCount st.bids ≤ 1

instance : DecidablePred atMostOneAccepted := fun st =>
  inferInstanceAs (Decidable (acceptedCount st.bids ≤ 1))

/-
  Frontend: ApiService (src/frontend/src/services/apiService.ts).
-/

/-- The response envelope returned by ApiService.request: on the error path
the source builds an object with success, message and errors fields and no
data. -/
structure ApiResponse (α : Type) where
  success : Bool
  message : String
  data : Option α
  errors : Option (List String)
deriving Repr

/-- The error payload an axios error may carry in error.response.data:
optional message, code and errors fields, each possibly absent. -/
structure ErrorResponseData where
  message : Option String
  code : Option String
  errors : Option (List String)
deriving Repr

/-- An axios error as read by ApiService.request: an optional server
response payload and the always-present error.message string (which may be
empty). -/
structure AxiosError where
  response : Option ErrorResponseData
  message : String
deriving Repr

/-- Outcome of the underlying axios call inside ApiService.request: either
the parsed response body, or a raised transport or server error. -/
inductive RequestOutcome (α : Type) where
  | success (r : ApiResponse α)
  | failure (e : AxiosError)

/-- JavaScript string disjunction a || b: the empty string is falsy, so an
absent or empty left operand falls through to the right operand. -/
def jsOrString (a : Option String) (b : String) : String :=
  match a with
  | some s => if s = "" then b else s
  | none => b

/-- The HTTP verbs of the five ApiService wrapper methods. -/
inductive HttpMethod where
  | GET
  | POST
  | PUT
  | PATCH
  | DELETE
deriving DecidableEq, Repr

/-- ApiService.request: awaits the axios call and returns its body; any
thrown error is caught and turned into a failure envelope whose message is
error.response.data.message or else error.message or else a fixed default,
and whose errors field is error.response.data.errors or else the
one-element list holding that message (an empty server errors array is
truthy in JavaScript and is kept as is). -/
def ApiService.request (α : Type) (method : HttpMethod) (url : String)
    (outcome : RequestOutcome α) : ApiResponse α :=
  match method, url, outcome with
  | _, _, .success r => r
  | _, _, .failure e =>
    let apiErrorMessage : String :=
      jsOrString (e.response.bind (fun d => d.message))
        (jsOrString (some e.message) "An error occurred")
    { success := false
      message := apiErrorMessage
      data := none
      errors := some ((e.response.bind (fun d => d.errors)).getD
        [apiErrorMessage]) }

/-- ApiService.get delegates to request with the GET verb. -/
def ApiService.get (α : Type) (url : String) (outcome : RequestOutcome α) :
    ApiResponse α :=
  ApiService.request α .GET url outcome

/-- ApiService.post delegates to request with the POST verb. -/
def ApiService.post (α : Type) (url : String) (outcome : RequestOutcome α) :
    ApiResponse α :=
  ApiService.request α .POST url outcome

/-- ApiService.put delegates to request with the PUT verb. -/
def ApiService.put (α : Type) (url : String) (outcome : RequestOutcome α) :
    ApiResponse α :=
  ApiService.request α .PUT url outcome

/-- ApiService.patch delegates to request with the PATCH verb. -/
def ApiService.patch (α : Type) (url : String) (outcome : RequestOutcome α) :
    ApiResponse α :=
  ApiService.request α .PATCH url outcome

/-- ApiService.delete delegates to request with the DELETE verb. -/
def ApiService.delete (α : Type) (url : String) (outcome : RequestOutcome α) :
    ApiResponse α :=
  ApiService.request α .DELETE url outcome

/-
  Frontend: AuthProvider logout (AuthContext, src/unnamed/part_002).
-/

/-- The browser storage used by storageService, as a key-value list. -/
def StorageMap : Type := List (String × String)

/-- storageService.getItem: first entry under the key, if any. -/
def getItem (m : StorageMap) (key : String) : Option String :=
  (m.find? (fun e => e.1 == key)).map (fun e => e.2)

/-- storageService.removeItem: drops every entry under the key. -/
def removeItem (m : StorageMap) (key : String) : StorageMap :=
  m.filter (fun e => e.1 != key)

/-- The local authentication state AuthProvider manages: the React user
state, the browser storage, and the token held by the API service. -/
structure AuthState where
  user : Option Nat
  storage : StorageMap
  apiToken : Option String

/-- The finally block of logout: setUser(null), remove both stored tokens,
clear the API-service token. -/
def logoutCleanup (st : AuthState) : AuthState :=
  { user := none
    storage := removeItem (removeItem st.storage "auth_token") "refresh_token"
    apiToken := none }

/-- AuthProvider.logout: when a refresh token is stored, POST /auth/logout
is attempted and any thrown error is caught and logged; the finally block
then clears the local state in every branch. Returns the new state and
whether the server call was made and failed. -/
def logout (st : AuthState) (serverCallFails : Bool) : AuthState × Bool :=
  match getItem st.storage "refresh_token" with
  | some _ => (logoutCleanup st, serverCallFails)
  | none => (logoutCleanup st, false)

/-
  Concrete states used to witness the hypothetical theorems: the three-bid
  scenario of section 8 (amounts 100, 90, 95 on a project whose bidding
  has closed) and an active project.
-/

/-- A project whose bidding has closed, ready for an award. -/
def sampleProject : Project := ⟨1, 10, 1000, .bidding_closed⟩

/-- Pending bid with amount 100. -/
def sampleBid1 : Bid := ⟨101, 1, 21, 100, 30, .pending⟩

/-- Pending bid with amount 90, the one the owner accepts. -/
def sampleBid2 : Bid := ⟨102, 1, 22, 90, 25, .pending⟩

/-- Pending bid with amount 95. -/
def sampleBid3 : Bid := ⟨103, 1, 23, 95, 28, .pending⟩

/-- The closed project with its three pending bids. -/
def sampleLedger : LedgerState :=
  ⟨sampleProject, [sampleBid1, sampleBid2, sampleBid3]⟩

/-- An active project accepting bids until time 1000. -/
def sampleActiveProject : Project := ⟨2, 10, 1000, .active⟩

/-- The active project with one pending bid. -/
def sampleActiveLedger : LedgerState :=
  ⟨sampleActiveProject, [⟨201, 2, 21, 50, 10, .pending⟩]⟩

/-
  Characterization lemmas: what a successful run of each operation says
  about its inputs and its returned state.
-/

/-- A successful activate started from draft, had a future deadline, and
only set the status to active. -/
lemma activate_ok {now : Nat} {p p' : Project}
    (h : activate now p = Except.ok p') :
    p.status = ProjectStatus.draft ∧ now < p.biddingDeadline ∧
    p' = { p with status := .active } := by
  unfold activate at h
  split at h
  next h1 => exact Except.noConfusion h
  next h1 =>
    split at h
    next h2 => exact Except.noConfusion h
    next h2 =>
      injection h with h
      exact ⟨not_not.mp h1, Nat.lt_of_not_le h2, h.symm⟩

/-- A successful extendDeadline strictly moved the deadline into the
future of both the old deadline and now, on an active project. -/
lemma extendDeadline_ok {now newDeadline : Nat} {p p' : Project}
    (h : extendDeadline now p newDeadline = Except.ok p') :
    p.biddingDeadline < newDeadline ∧ now < newDeadline ∧
    p.status = ProjectStatus.active ∧
    p' = { p with biddingDeadline := newDeadline } := by
  unfold extendDeadline at h
  split at h
  next h1 => exact Except.noConfusion h
  next h1 =>
    split at h
    next h2 => exact Except.noConfusion h
    next h2 =>
      injection h with h
      push_neg at h1
      exact ⟨h1.1, h1.2, not_not.mp h2, h.symm⟩

/-- A successful close started from active or bidding_closed and either
moved to bidding_closed or returned the project unchanged. -/
lemma close_ok {p p' : Project} (h : close p = Except.ok p') :
    (p.status = ProjectStatus.active ∧
      p' = { p with status := .bidding_closed }) ∨
    (p.status = ProjectStatus.bidding_closed ∧ p' = p) := by
  unfold close at h
  split at h
  next hs => injection h with h; exact Or.inl ⟨hs, h.symm⟩
  next hs => injection h with h; exact Or.inr ⟨hs, h.symm⟩
  next => exact Except.noConfusion h

/-- A successful updateStatus followed a defined edge of the transition
table and set exactly that status. -/
lemma updateStatus_ok {p p' : Project} {target : ProjectStatus}
    (h : updateStatus p target = Except.ok p') :
    allowedEdge p.status target = true ∧
    p' = { p with status := target } := by
  unfold updateStatus at h
  split at h
  next h1 => injection h with h; exact ⟨h1, h.symm⟩
  next h1 => exact Except.noConfusion h

/-- A successful submit ran on an active project before its deadline with
positive amount and timeline and appended one fresh pending bid. -/
lemma submit_ok {now bidderId newId : Nat} {amount timeline : Int}
    {st st' : LedgerState}
    (h : submit now st bidderId amount timeline newId = Except.ok st') :
    st.project.status = ProjectStatus.active ∧
    now < st.project.biddingDeadline ∧
    st'.project = st.project ∧
    st'.bids = st.bids ++
      [⟨newId, st.project.id, bidderId, amount, timeline, .pending⟩] := by
  unfold submit at h
  split at h
  next h1 => exact Except.noConfusion h
  next h1 =>
    split at h
    next h2 => exact Except.noConfusion h
    next h2 =>
      split at h
      next h3 => exact Except.noConfusion h
      next h3 =>
        injection h with h
        have h1p := not_not.mp h1
        exact ⟨h1p.1, h1p.2, by rw [← h], by rw [← h]⟩

/-- A successful withdraw found a pending target bid and mapped the
withdraw update over the bid list, leaving the project untouched. -/
lemma withdraw_ok {bidId : Nat} {st st' : LedgerState}
    (h : withdraw st bidId = Except.ok st') :
    st'.project = st.project ∧
    st'.bids = st.bids.map (withdrawUpdate bidId) := by
  unfold withdraw at h
  split at h
  next => exact Except.noConfusion h
  next b hfind =>
    split at h
    next hb => injection h with h; exact ⟨by rw [← h], by rw [← h]⟩
    next hb => exact Except.noConfusion h

/-- A successful reject either returned the state unchanged (idempotent
case) or mapped the reject update over the bid list. -/
lemma reject_ok {bidId : Nat} {st st' : LedgerState}
    (h : reject st bidId = Except.ok st') :
    st' = st ∨
    (st'.project = st.project ∧
     st'.bids = st.bids.map (rejectUpdate bidId)) := by
  unfold reject at h
  split at h
  next => exact Except.noConfusion h
  next b hfind =>
    split at h
    · injection h with h; exact Or.inr ⟨by rw [← h], by rw [← h]⟩
    · injection h with h; exact Or.inl h.symm
    · exact Except.noConfusion h

/-- A successful cancel ran on a non-terminal project with a non-empty
reason, moved the project to cancelled, and mapped the cancel update over
the bid list. -/
lemma cancel_ok {reason : String} {st st' : LedgerState}
    (h : cancel st reason = Except.ok st') :
    st.project.status.isTerminal = false ∧ reason ≠ "" ∧
    st'.project = { st.project with status := .cancelled } ∧
    st'.bids = st.bids.map cancelUpdate := by
  unfold cancel at h
  split at h
  next h1 => exact Except.noConfusion h
  next h1 =>
    split at h
    next h2 => exact Except.noConfusion h
    next h2 =>
      injection h with h
      exact ⟨Bool.not_eq_true _ ▸ eq_false_of_ne_true h1, h2,
        by rw [← h], by rw [← h]⟩

/-- A successful accept ran with no accepted bid on a bidding_closed
project, found a pending target bid, and returned the awarded project
with the accept update mapped over the bid list. -/
lemma accept_ok {bidId : Nat} {st st' : LedgerState}
    (h : accept st bidId = Except.ok st') :
    (∀ b ∈ st.bids, b.status ≠ BidStatus.accepted) ∧
    st.project.status = ProjectStatus.bidding_closed ∧
    (∃ b, st.bids.find? (fun c => c.id == bidId) = some b ∧
          b.status = BidStatus.pending) ∧
    st' = ⟨{ st.project with status := .awarded },
           st.bids.map (acceptUpdate bidId)⟩ := by
  unfold accept at h
  split at h
  next h1 => exact Except.noConfusion h
  next h1 =>
    split at h
    next h2 => exact Except.noConfusion h
    next h2 =>
      split at h
      next => exact Except.noConfusion h
      next b hfind =>
        split at h
        next hb =>
          injection h with h
          refine ⟨?_, not_not.mp h2, ⟨b, hfind, hb⟩, h.symm⟩
          intro x hx hxacc
          exact h1 (List.any_eq_true.mpr ⟨x, hx, by simp [hxacc]⟩)
        next hb => exact Except.noConfusion h

/-
  Counting lemmas for the accepted-bid invariant.
-/

/-- A per-bid update that never turns a bid into an accepted one cannot
raise the accepted count. -/
lemma acceptedCount_map_le (f : Bid → Bid)
    (hf : ∀ b : Bid, (f b).status = BidStatus.accepted →
      b.status = BidStatus.accepted)
    (l : List Bid) : acceptedCount (l.map f) ≤ acceptedCount l := by
  unfold acceptedCount
  rw [List.countP_map]
  apply List.countP_mono_left
  intro x _ hx
  simp only [Function.comp_apply, beq_iff_eq] at hx
  simp only [beq_iff_eq]
  exact hf x hx

/-- After the accept update on a list without accepted bids, the accepted
bids are exactly the bids carrying the target id. -/
lemma acceptedCount_map_acceptUpdate (bidId : Nat) (l : List Bid)
    (hno : ∀ b ∈ l, b.status ≠ BidStatus.accepted) :
    acceptedCount (l.map (acceptUpdate bidId)) =
      l.countP (fun b => b.id == bidId) := by
  unfold acceptedCount
  rw [List.countP_map]
  apply List.countP_congr
  intro x hx
  simp only [Function.comp_apply, beq_iff_eq]
  by_cases hid : x.id = bidId
  · simp [acceptUpdate, hid]
  · have hcond : (x.id == bidId) = false := by simp [hid]
    simp only [acceptUpdate, hcond, Bool.false_eq_true, if_false, hid,
      iff_false]
    by_cases hp : x.status = BidStatus.pending
    · simp [hp]
    · simp only [hp, if_false]
      exact fun hacc => hno x hx hacc

/-- In a list whose bid ids are pairwise distinct, at most one bid carries
any given id. -/
lemma countP_id_le_one (bidId : Nat) (l : List Bid)
    (h : (l.map Bid.id).Nodup) :
    l.countP (fun b => b.id == bidId) ≤ 1 := by
  induction l with
  | nil => simp
  | cons a t ih =>
    rw [List.map_cons, List.nodup_cons] at h
    rw [List.countP_cons]
    by_cases hid : a.id = bidId
    · have ht : t.countP (fun b => b.id == bidId) = 0 := by
        apply List.countP_eq_zero.mpr
        intro x hx hxeq
        simp only [beq_iff_eq] at hxeq
        have hxa : x.id = a.id := by rw [hxeq, hid]
        exact h.1 (hxa ▸ List.mem_map_of_mem Bid.id hx)
      simp [ht, hid]
    · have hcond : (a.id == bidId) = false := by simp [hid]
      simp only [hcond, Bool.false_eq_true, if_false, Nat.add_zero]
      exact ih h.2

/-- The withdraw update never produces an accepted bid from a
non-accepted one. -/
lemma withdrawUpdate_no_new_accept (bidId : Nat) (b : Bid)
    (h : (withdrawUpdate bidId b).status = BidStatus.accepted) :
    b.status = BidStatus.accepted := by
  unfold withdrawUpdate at h
  split at h
  · exact absurd h (by simp)
  · exact h

/-- The reject update never produces an accepted bid from a
non-accepted one. -/
lemma rejectUpdate_no_new_accept (bidId : Nat) (b : Bid)
    (h : (rejectUpdate bidId b).status = BidStatus.accepted) :
    b.status = BidStatus.accepted := by
  unfold rejectUpdate at h
  split at h
  · exact absurd h (by simp)
  · exact h

/-- The cancel update never produces an accepted bid from a
non-accepted one. -/
lemma cancelUpdate_no_new_accept (b : Bid)
    (h : (cancelUpdate b).status = BidStatus.accepted) :
    b.status = BidStatus.accepted := by
  unfold cancelUpdate at h
  split at h
  · exact absurd h (by simp)
  · exact h

/-- The accept update keeps the id of every bid. -/
lemma acceptUpdate_id (bidId : Nat) (c : Bid) :
    (acceptUpdate bidId c).id = c.id := by
  unfold acceptUpdate
  split
  · rfl
  · split <;> rfl

/-- C1: for every project state satisfying the data-model invariants
(bid ids pairwise distinct) in which at most one bid is accepted, every
operation of BidLedger and ProjectLifecycle — submit, withdraw, accept,
award, reject, cancel, activate, close, expire sweep and the status-update
interface — again yields a state with at most one accepted bid; failing
calls return an error and produce no state at all, so the invariant holds
at every observable instant of the serialized execution. -/
theorem at_most_one_accepted_preserved
    (st : LedgerState)
    (hinv : atMostOneAccepted st)
    (hids : (st.bids.map Bid.id).Nodup) :
    (∀ now bidderId amount timeline newId st',
        submit now st bidderId amount timeline newId = Except.ok st' →
        atMostOneAccepted st') ∧
    (∀ bidId st', withdraw st bidId = Except.ok st' →
        atMostOneAccepted st') ∧
    (∀ bidId st', accept st bidId = Except.ok st' →
        atMostOneAccepted st') ∧
    (∀ bidId st', award st bidId = Except.ok st' →
        atMostOneAccepted st') ∧
    (∀ bidId st', reject st bidId = Except.ok st' →
        atMostOneAccepted st') ∧
    (∀ reason st', cancel st reason = Except.ok st' →
        atMostOneAccepted st') ∧
    (∀ now p', activate now st.project = Except.ok p' →
        atMostOneAccepted ⟨p', st.bids⟩) ∧
    (∀ p', close st.project = Except.ok p' →
        atMostOneAccepted ⟨p', st.bids⟩) ∧
    (∀ target p', updateStatus st.project target = Except.ok p' →
        atMostOneAccepted ⟨p', st.bids⟩) ∧
    (∀ now, atMostOneAccepted (expireSweep now st)) := by
  have haccept : ∀ bidId st', accept st bidId = Except.ok st' →
      atMostOneAccepted st' := by
    intro bidId st' h
    obtain ⟨hno, -, -, hst⟩ := accept_ok h
    unfold atMostOneAccepted
    rw [hst]
    rw [acceptedCount_map_acceptUpdate bidId st.bids hno]
    exact countP_id_le_one bidId st.bids hids
  refine ⟨?_, ?_, haccept, ?_, ?_, ?_, ?_, ?_, ?_, ?_⟩
  · intro now bidderId amount timeline newId st' h
    obtain ⟨-, -, -, hbids⟩ := submit_ok h
    unfold atMostOneAccepted
    rw [hbids]
    unfold acceptedCount
    rw [List.countP_append]
    simpa [List.countP] using hinv
  · intro bidId st' h
    obtain ⟨-, hbids⟩ := withdraw_ok h
    unfold atMostOneAccepted
    rw [hbids]
    exact le_trans
      (acceptedCount_map_le _ (withdrawUpdate_no_new_accept bidId) st.bids)
      hinv
  · intro bidId st' h
    exact haccept bidId st' h
  · intro bidId st' h
    rcases reject_ok h with hsame | ⟨-, hbids⟩
    · rw [hsame]; exact hinv
    · unfold atMostOneAccepted
      rw [hbids]
      exact le_trans
        (acceptedCount_map_le _ (rejectUpdate_no_new_accept bidId) st.bids)
        hinv
  · intro reason st' h
    obtain ⟨-, -, -, hbids⟩ := cancel_ok h
    unfold atMostOneAccepted
    rw [hbids]
    exact le_trans
      (acceptedCount_map_le _ cancelUpdate_no_new_accept st.bids) hinv
  · intro now p' _
    exact hinv
  · intro p' _
    exact hinv
  · intro target p' _
    exact hinv
  · intro now
    unfold expireSweep
    split
    · exact hinv
    · exact hinv

/-- C1 witness: the invariant theorem applied to the concrete three-bid
scenario, instantiated at the deadline sweep after the deadline. -/
theorem at_most_one_accepted_preserved_witness :
    atMostOneAccepted sampleLedger ∧
    (sampleLedger.bids.map Bid.id).Nodup ∧
    atMostOneAccepted (expireSweep 2000 sampleLedger) :=
  ⟨by decide, by decide,
    (at_most_one_accepted_preserved sampleLedger (by decide)
      (by decide)).2.2.2.2.2.2.2.2.2 2000⟩

/-- C2: on a project whose bidding is closed and on which no bid is yet
accepted, a successful accept returns, in one atomic state, the target bid
accepted, every other previously pending bid rejected, and the project
awarded. -/
theorem accept_awards_atomically {st st' : LedgerState} {bidId : Nat}
    (_hclosed : st.project.status = ProjectStatus.bidding_closed)
    (_hnone : ∀ b ∈ st.bids, b.status ≠ BidStatus.accepted)
    (h : accept st bidId = Except.ok st') :
    st'.project.status = ProjectStatus.awarded ∧
    (∀ b ∈ st.bids, b.id = bidId →
        { b with status := BidStatus.accepted } ∈ st'.bids) ∧
    (∀ b' ∈ st'.bids, b'.id = bidId → b'.status = BidStatus.accepted) ∧
    (∀ b ∈ st.bids, b.id ≠ bidId → b.status = BidStatus.pending →
        { b with status := BidStatus.rejected } ∈ st'.bids) := by
  obtain ⟨-, -, -, hst⟩ := accept_ok h
  subst hst
  refine ⟨rfl, ?_, ?_, ?_⟩
  · intro b hb hbid
    have hupd : acceptUpdate bidId b =
        { b with status := BidStatus.accepted } := by
      unfold acceptUpdate
      simp [hbid]
    exact hupd ▸ List.mem_map_of_mem (acceptUpdate bidId) hb
  · intro b' hb' hbid
    obtain ⟨b, hb, hfb⟩ := List.mem_map.mp hb'
    by_cases hid : b.id = bidId
    · rw [← hfb]
      unfold acceptUpdate
      simp [hid]
    · exfalso
      apply hid
      rw [← acceptUpdate_id bidId b, hfb, hbid]
  · intro b hb hbid hpend
    have hupd : acceptUpdate bidId b =
        { b with status := BidStatus.rejected } := by
      unfold acceptUpdate
      simp [hbid, hpend]
    exact hupd ▸ List.mem_map_of_mem (acceptUpdate bidId) hb

/-- C2 witness: on the closed three-bid project, accepting the bid with
amount 90 yields the awarded project with that bid accepted and the other
two rejected, and the accepted bid is a member of the resulting bid set. -/
theorem accept_awards_atomically_witness :
    sampleLedger.project.status = ProjectStatus.bidding_closed ∧
    accept sampleLedger 102 = Except.ok
      (⟨⟨1, 10, 1000, .awarded⟩,
        [⟨101, 1, 21, 100, 30, .rejected⟩,
         ⟨102, 1, 22, 90, 25, .accepted⟩,
         ⟨103, 1, 23, 95, 28, .rejected⟩]⟩ : LedgerState) ∧
    (⟨⟨1, 10, 1000, .awarded⟩,
      [⟨101, 1, 21, 100, 30, .rejected⟩,
       ⟨102, 1, 22, 90, 25, .accepted⟩,
       ⟨103, 1, 23, 95, 28, .rejected⟩]⟩ : LedgerState).project.status =
      ProjectStatus.awarded :=
  ⟨rfl, rfl,
    (@accept_awards_atomically sampleLedger
      (⟨⟨1, 10, 1000, .awarded⟩,
        [⟨101, 1, 21, 100, 30, .rejected⟩,
         ⟨102, 1, 22, 90, 25, .accepted⟩,
         ⟨103, 1, 23, 95, 28, .rejected⟩]⟩ : LedgerState) 102
      rfl (by decide) rfl).1⟩

/-- C3: when two accept calls race on distinct bids of one project (in the
serialized model of section 5: one call runs first), the first one that
succeeds moves the project to awarded; the second call fails with
ConflictError — and therefore produces no state change — and the accepted
bid of the final state is the first target, never the second. -/
theorem accept_race_exactly_one_succeeds {st st' : LedgerState}
    {b1 b2 : Bid}
    (hb1 : b1 ∈ st.bids) (_hb2 : b2 ∈ st.bids)
    (_hne : b1.id ≠ b2.id)
    (h : accept st b1.id = Except.ok st') :
    st'.project.status = ProjectStatus.awarded ∧
    accept st' b2.id = Except.error BidError.conflictError ∧
    (∀ b' ∈ st'.bids, b'.status = BidStatus.accepted → b'.id = b1.id) := by
  obtain ⟨hno, -, -, hst⟩ := accept_ok h
  subst hst
  refine ⟨rfl, ?_, ?_⟩
  · have hupd : acceptUpdate b1.id b1 =
        { b1 with status := BidStatus.accepted } := by
      unfold acceptUpdate
      simp
    have hmem : ({ b1 with status := BidStatus.accepted } : Bid) ∈
        st.bids.map (acceptUpdate b1.id) :=
      hupd ▸ List.mem_map_of_mem (acceptUpdate b1.id) hb1
    have hany : (st.bids.map (acceptUpdate b1.id)).any
        (fun b => b.status == BidStatus.accepted) = true :=
      List.any_eq_true.mpr ⟨_, hmem, by simp⟩
    unfold accept
    simp [hany]
  · intro b' hb' hacc
    obtain ⟨b, hb, hfb⟩ := List.mem_map.mp hb'
    by_cases hid : b.id = b1.id
    · rw [← hfb, acceptUpdate_id]
      exact hid
    · exfalso
      rw [← hfb] at hacc
      unfold acceptUpdate at hacc
      have hcond : (b.id == b1.id) = false := by simp [hid]
      rw [hcond] at hacc
      simp only [Bool.false_eq_true, if_false] at hacc
      by_cases hp : b.status = BidStatus.pending
      · simp [hp] at hacc
      · simp only [hp, if_false] at hacc
        exact hno b hb hacc

/-- C3 witness: after accepting the bid with amount 90 on the three-bid
project, a second accept aimed at the bid with amount 95 fails with
ConflictError. -/
theorem accept_race_exactly_one_succeeds_witness :
    sampleBid2 ∈ sampleLedger.bids ∧
    sampleBid3 ∈ sampleLedger.bids ∧
    sampleBid2.id ≠ sampleBid3.id ∧
    accept
      (⟨⟨1, 10, 1000, .awarded⟩,
        [⟨101, 1, 21, 100, 30, .rejected⟩,
         ⟨102, 1, 22, 90, 25, .accepted⟩,
         ⟨103, 1, 23, 95, 28, .rejected⟩]⟩ : LedgerState) sampleBid3.id =
      Except.error BidError.conflictError :=
  ⟨by decide, by decide, by decide,
    (@accept_race_exactly_one_succeeds sampleLedger
      (⟨⟨1, 10, 1000, .awarded⟩,
        [⟨101, 1, 21, 100, 30, .rejected⟩,
         ⟨102, 1, 22, 90, 25, .accepted⟩,
         ⟨103, 1, 23, 95, 28, .rejected⟩]⟩ : LedgerState)
      sampleBid2 sampleBid3
      (by decide) (by decide) (by decide) rfl).2.1⟩

/-- C4: whenever the project is not active or now is not strictly before
the bidding deadline — in particular for every submit at or after the
deadline — submit fails with InvalidStateTransition and never returns a
state, so the bid set of the project is unchanged. -/
theorem submit_outside_window_fails
    (now : Nat) (st : LedgerState) (bidderId : Nat)
    (amount timeline : Int) (newId : Nat)
    (hnot : st.project.status ≠ ProjectStatus.active ∨
            st.project.biddingDeadline ≤ now) :
    submit now st bidderId amount timeline newId =
      Except.error BidError.invalidStateTransition ∧
    ∀ st', submit now st bidderId amount timeline newId ≠ Except.ok st' := by
  have hcond : ¬ (st.project.status = ProjectStatus.active ∧
      now < st.project.biddingDeadline) := by
    rcases hnot with hs | hd
    · exact fun hc => hs hc.1
    · exact fun hc => Nat.not_le_of_lt hc.2 hd
  have heq : submit now st bidderId amount timeline newId =
      Except.error BidError.invalidStateTransition := by
    unfold submit
    rw [if_pos hcond]
  exact ⟨heq, fun st' hok => Except.noConfusion (heq ▸ hok)⟩

/-- C4 witness: a submit at the exact deadline tick of the active project
fails with InvalidStateTransition. -/
theorem submit_outside_window_fails_witness :
    (sampleActiveLedger.project.status ≠ ProjectStatus.active ∨
      sampleActiveLedger.project.biddingDeadline ≤ 1000) ∧
    submit 1000 sampleActiveLedger 33 80 14 999 =
      Except.error BidError.invalidStateTransition :=
  ⟨Or.inr (by decide),
    (submit_outside_window_fails 1000 sampleActiveLedger 33 80 14 999
      (Or.inr (by decide))).1⟩

/-- C5: on a non-terminal project, cancel with an empty reason fails with
ValidationError, and a successful cancel leaves no bid pending or
accepted: every previously pending or accepted bid reappears as
rejected. -/
theorem cancel_rejects_all_live_bids
    (st : LedgerState) (reason : String)
    (hnonterm : st.project.status.isTerminal = false) :
    (reason = "" →
      cancel st reason = Except.error BidError.validationError) ∧
    (∀ st', cancel st reason = Except.ok st' →
      (∀ b' ∈ st'.bids, b'.status ≠ BidStatus.pending ∧
        b'.status ≠ BidStatus.accepted) ∧
      (∀ b ∈ st.bids,
        b.status = BidStatus.pending ∨ b.status = BidStatus.accepted →
        { b with status := BidStatus.rejected } ∈ st'.bids)) := by
  constructor
  · intro hreason
    unfold cancel
    rw [if_neg (by simp [hnonterm]), if_pos hreason]
  · intro st' h
    obtain ⟨-, -, -, hbids⟩ := cancel_ok h
    constructor
    · intro b' hb'
      rw [hbids] at hb'
      obtain ⟨b, -, hfb⟩ := List.mem_map.mp hb'
      rw [← hfb]
      unfold cancelUpdate
      split
      · exact ⟨by simp, by simp⟩
      next hlive =>
        push_neg at hlive
        exact ⟨hlive.1, hlive.2⟩
    · intro b hb hlive
      have hupd : cancelUpdate b = { b with status := BidStatus.rejected } := by
        unfold cancelUpdate
        rw [if_pos hlive]
      rw [hbids]
      exact hupd ▸ List.mem_map_of_mem cancelUpdate hb

/-- C5 witness: cancelling the closed three-bid project with an empty
reason fails with ValidationError, and cancelling it with a reason leaves
all three bids rejected. -/
theorem cancel_rejects_all_live_bids_witness :
    sampleLedger.project.status.isTerminal = false ∧
    cancel sampleLedger "" = Except.error BidError.validationError ∧
    (∀ b' ∈ (⟨⟨1, 10, 1000, .cancelled⟩,
        [⟨101, 1, 21, 100, 30, .rejected⟩,
         ⟨102, 1, 22, 90, 25, .rejected⟩,
         ⟨103, 1, 23, 95, 28, .rejected⟩]⟩ : LedgerState).bids,
      b'.status ≠ BidStatus.pending ∧ b'.status ≠ BidStatus.accepted) :=
  ⟨by decide,
    (cancel_rejects_all_live_bids sampleLedger "" (by decide)).1 rfl,
    ((cancel_rejects_all_live_bids sampleLedger "scope change"
        (by decide)).2
      (⟨⟨1, 10, 1000, .cancelled⟩,
        [⟨101, 1, 21, 100, 30, .rejected⟩,
         ⟨102, 1, 22, 90, 25, .rejected⟩,
         ⟨103, 1, 23, 95, 28, .rejected⟩]⟩ : LedgerState) rfl).1⟩

/-- C6: extendDeadline fails with ValidationError whenever the proposed
deadline is at or before the current deadline or at or before now, never
succeeds on a project that is not active, and on success the deadline
grew strictly; a failing call returns only an error, so the stored
deadline is untouched. -/
theorem extendDeadline_guards (now : Nat) (p : Project) (newDeadline : Nat) :
    (newDeadline ≤ p.biddingDeadline ∨ newDeadline ≤ now →
      extendDeadline now p newDeadline =
        Except.error BidError.validationError) ∧
    (p.status ≠ ProjectStatus.active →
      ∀ p', extendDeadline now p newDeadline ≠ Except.ok p') ∧
    (∀ p', extendDeadline now p newDeadline = Except.ok p' →
      p.biddingDeadline < p'.biddingDeadline ∧ now < p'.biddingDeadline) := by
  refine ⟨?_, ?_, ?_⟩
  · intro hle
    unfold extendDeadline
    rw [if_pos hle]
  · intro hs p' hok
    obtain ⟨-, -, hactive, -⟩ := extendDeadline_ok hok
    exact hs hactive
  · intro p' hok
    obtain ⟨hgt, hnow, -, hp'⟩ := extendDeadline_ok hok
    rw [hp']
    exact ⟨hgt, hnow⟩

/-- C6 witness: proposing a deadline at the current deadline of the active
project fails with ValidationError, and proposing one in the past of now
fails the same way. -/
theorem extendDeadline_guards_witness :
    (1000 ≤ sampleActiveProject.biddingDeadline ∨ 1000 ≤ 500) ∧
    extendDeadline 500 sampleActiveProject 1000 =
      Except.error BidError.validationError :=
  ⟨Or.inl (by decide),
    (extendDeadline_guards 500 sampleActiveProject 1000).1
      (Or.inl (by decide))⟩

/-- C8: close is idempotent — on a project already in bidding_closed it
returns exactly the same project without error, and for an active project
running close twice equals running it once. -/
theorem close_idempotent (p : Project) :
    (p.status = ProjectStatus.bidding_closed → close p = Except.ok p) ∧
    (p.status = ProjectStatus.active →
      (close p).bind close = close p) := by
  constructor
  · intro h
    unfold close
    rw [h]
  · intro h
    unfold close
    rw [h]
    rfl

/-- C8 witness: close on the already closed sample project returns it
unchanged, and on the active sample project close after close equals a
single close. -/
theorem close_idempotent_witness :
    sampleProject.status = ProjectStatus.bidding_closed ∧
    close sampleProject = Except.ok sampleProject ∧
    sampleActiveProject.status = ProjectStatus.active ∧
    (close sampleActiveProject).bind close = close sampleActiveProject :=
  ⟨rfl, (close_idempotent sampleProject).1 rfl, rfl,
    (close_idempotent sampleActiveProject).2 rfl⟩

/-- C7 counterexample: cancel is allowed from every non-terminal state,
and draft is non-terminal, so cancelling a draft project succeeds and
moves it draft → cancelled — a status change that is not a defined edge
of the section 4.1 transition table. -/
theorem cancel_draft_offtable_counterexample :
    cancel (⟨⟨7, 10, 1000, .draft⟩, []⟩ : LedgerState) "owner abandoned" =
      Except.ok (⟨⟨7, 10, 1000, .cancelled⟩, []⟩ : LedgerState) ∧
    allowedEdge ProjectStatus.draft ProjectStatus.cancelled = false :=
  ⟨rfl, rfl⟩

/-- C7 (amended): every status is one of the seven enumerated states by
construction, and every status change of every operation follows a defined
edge of the section 4.1 table — with the single exception that cancel,
being allowed from any non-terminal state, may also move a draft project
directly to cancelled; the status-update interface rejects every
transition that is not a defined edge. -/
theorem status_transitions_follow_edges (st : LedgerState) (p : Project) :
    (∀ now p', activate now p = Except.ok p' →
      allowedEdge p.status p'.status = true) ∧
    (∀ p', close p = Except.ok p' →
      p'.status = p.status ∨ allowedEdge p.status p'.status = true) ∧
    (∀ now newDeadline p', extendDeadline now p newDeadline = Except.ok p' →
      p'.status = p.status) ∧
    (∀ target p', updateStatus p target = Except.ok p' →
      p'.status = target ∧ allowedEdge p.status target = true) ∧
    (∀ target, allowedEdge p.status target = false →
      updateStatus p target = Except.error BidError.invalidStateTransition) ∧
    (∀ now bidderId amount timeline newId st',
      submit now st bidderId amount timeline newId = Except.ok st' →
      st'.project.status = st.project.status) ∧
    (∀ bidId st', withdraw st bidId = Except.ok st' →
      st'.project.status = st.project.status) ∧
    (∀ bidId st', reject st bidId = Except.ok st' →
      st'.project.status = st.project.status) ∧
    (∀ bidId st', accept st bidId = Except.ok st' →
      allowedEdge st.project.status st'.project.status = true) ∧
    (∀ reason st', cancel st reason = Except.ok st' →
      st'.project.status = ProjectStatus.cancelled ∧
      (st.project.status ≠ ProjectStatus.draft →
        allowedEdge st.project.status st'.project.status = true)) ∧
    (∀ now, (expireSweep now st).project.status = st.project.status ∨
      allowedEdge st.project.status
        (expireSweep now st).project.status = true) := by
  refine ⟨?_, ?_, ?_, ?_, ?_, ?_, ?_, ?_, ?_, ?_, ?_⟩
  · intro now p' h
    obtain ⟨hdraft, -, hp'⟩ := activate_ok h
    rw [hdraft, hp']
    rfl
  · intro p' h
    rcases close_ok h with ⟨ha, hp'⟩ | ⟨-, hp'⟩
    · right
      rw [ha, hp']
      rfl
    · left
      rw [hp']
  · intro now newDeadline p' h
    obtain ⟨-, -, -, hp'⟩ := extendDeadline_ok h
    rw [hp']
  · intro target p' h
    obtain ⟨hedge, hp'⟩ := updateStatus_ok h
    exact ⟨by rw [hp'], hedge⟩
  · intro target hedge
    unfold updateStatus
    rw [if_neg (by simp [hedge])]
  · intro now bidderId amount timeline newId st' h
    obtain ⟨-, -, hproj, -⟩ := submit_ok h
    rw [hproj]
  · intro bidId st' h
    obtain ⟨hproj, -⟩ := withdraw_ok h
    rw [hproj]
  · intro bidId st' h
    rcases reject_ok h with hsame | ⟨hproj, -⟩
    · rw [hsame]
    · rw [hproj]
  · intro bidId st' h
    obtain ⟨-, hclosed, -, hst⟩ := accept_ok h
    rw [hclosed, hst]
    rfl
  · intro reason st' h
    obtain ⟨hterm, -, hproj, -⟩ := cancel_ok h
    refine ⟨by rw [hproj], ?_⟩
    intro hnd
    rw [hproj]
    cases hstat : st.project.status
    case draft => exact absurd hstat hnd
    case active => rfl
    case bidding_closed => rfl
    case awarded => rfl
    case completed =>
      rw [hstat] at hterm
      exact absurd hterm (by simp [ProjectStatus.isTerminal])
    case cancelled =>
      rw [hstat] at hterm
      exact absurd hterm (by simp [ProjectStatus.isTerminal])
    case expired =>
      rw [hstat] at hterm
      exact absurd hterm (by simp [ProjectStatus.isTerminal])
  · intro now
    unfold expireSweep
    split
    next hc =>
      right
      rcases hc.1 with ha | hb
      · rw [ha]
        rfl
      · rw [hb]
        rfl
    next => left; rfl

/-- C7 witness: the status-update interface rejects the undefined
transition bidding_closed → draft on the sample project. -/
theorem status_transitions_follow_edges_witness :
    allowedEdge sampleProject.status ProjectStatus.draft = false ∧
    updateStatus sampleProject ProjectStatus.draft =
      Except.error BidError.invalidStateTransition :=
  ⟨by decide,
    (status_transitions_follow_edges sampleLedger
      sampleProject).2.2.2.2.1 ProjectStatus.draft (by decide)⟩

/-- A JavaScript string disjunction is non-empty as soon as its right
operand is. -/
lemma jsOrString_ne_empty (a : Option String) (b : String) (hb : b ≠ "") :
    jsOrString a b ≠ "" := by
  cases a with
  | none => simpa [jsOrString] using hb
  | some s =>
    by_cases hs : s = ""
    · simp [jsOrString, hs]
      exact hb
    · simp [jsOrString, hs]

/-- On any caught error, ApiService.request returns the failure envelope:
success false, a non-empty message, and a present errors list. -/
lemma request_failure_envelope (α : Type) (method : HttpMethod)
    (url : String) (e : AxiosError) :
    (ApiService.request α method url (RequestOutcome.failure e)).success
        = false ∧
    (ApiService.request α method url (RequestOutcome.failure e)).message
        ≠ "" ∧
    (ApiService.request α method url (RequestOutcome.failure e)).errors.isSome
        = true := by
  refine ⟨?_, ?_, ?_⟩
  · cases method <;> rfl
  · cases method <;>
      exact jsOrString_ne_empty _ _
        (jsOrString_ne_empty _ _ (by decide))
  · cases method <;> rfl

/-- C9: each of the five HTTP method wrappers of ApiService returns a
plain ApiResponse value on every outcome; when the underlying call raises
a transport or server error, the caught error is turned into an envelope
with success false, a non-empty message and an errors list present. -/
theorem apiService_wrappers_never_raise (α : Type) (url : String)
    (e : AxiosError) :
    ((ApiService.get α url (RequestOutcome.failure e)).success = false ∧
      (ApiService.get α url (RequestOutcome.failure e)).message ≠ "" ∧
      (ApiService.get α url (RequestOutcome.failure e)).errors.isSome
        = true) ∧
    ((ApiService.post α url (RequestOutcome.failure e)).success = false ∧
      (ApiService.post α url (RequestOutcome.failure e)).message ≠ "" ∧
      (ApiService.post α url (RequestOutcome.failure e)).errors.isSome
        = true) ∧
    ((ApiService.put α url (RequestOutcome.failure e)).success = false ∧
      (ApiService.put α url (RequestOutcome.failure e)).message ≠ "" ∧
      (ApiService.put α url (RequestOutcome.failure e)).errors.isSome
        = true) ∧
    ((ApiService.patch α url (RequestOutcome.failure e)).success = false ∧
      (ApiService.patch α url (RequestOutcome.failure e)).message ≠ "" ∧
      (ApiService.patch α url (RequestOutcome.failure e)).errors.isSome
        = true) ∧
    ((ApiService.delete α url (RequestOutcome.failure e)).success = false ∧
      (ApiService.delete α url (RequestOutcome.failure e)).message ≠ "" ∧
      (ApiService.delete α url (RequestOutcome.failure e)).errors.isSome
        = true) :=
  ⟨request_failure_envelope α .GET url e,
   request_failure_envelope α .POST url e,
   request_failure_envelope α .PUT url e,
   request_failure_envelope α .PATCH url e,
   request_failure_envelope α .DELETE url e⟩

/-- Looking a key up after removing it from storage yields nothing. -/
lemma getItem_removeItem (m : StorageMap) (k : String) :
    getItem (removeItem m k) k = none := by
  unfold getItem removeItem
  have hf : List.find? (fun e => e.1 == k)
      (m.filter (fun e => e.1 != k)) = none := by
    rw [List.find?_eq_none]
    intro x hx
    have hxk := (List.mem_filter.mp hx).2
    simp only [bne_iff_ne, ne_eq] at hxk
    simp [hxk]
  rw [hf]
  rfl

/-- A key stays absent after a further removal of another key. -/
lemma getItem_removeItem_of_removed (m : StorageMap) (a b : String) :
    getItem (removeItem (removeItem m a) b) a = none := by
  unfold getItem removeItem
  have hf : List.find? (fun e => e.1 == a)
      ((m.filter (fun e => e.1 != a)).filter (fun e => e.1 != b)) = none := by
    rw [List.find?_eq_none]
    intro x hx
    have hxa := (List.mem_filter.mp (List.mem_filter.mp hx).1).2
    simp only [bne_iff_ne, ne_eq] at hxa
    simp [hxa]
  rw [hf]
  rfl

/-- C10: AuthProvider.logout always clears the local authentication state:
whatever the initial state, and whether or not the POST /auth/logout call
to the server fails, afterwards the user is null, neither the auth_token
nor the refresh_token storage entries remain, and the API-service token is
cleared. -/
theorem logout_clears_auth_state (st : AuthState) (serverCallFails : Bool) :
    (logout st serverCallFails).1.user = none ∧
    getItem (logout st serverCallFails).1.storage "auth_token" = none ∧
    getItem (logout st serverCallFails).1.storage "refresh_token" = none ∧
    (logout st serverCallFails).1.apiToken = none := by
  have hclean : (logout st serverCallFails).1 = logoutCleanup st := by
    unfold logout
    split <;> rfl
  rw [hclean]
  refine ⟨rfl, ?_, ?_, rfl⟩
  · exact getItem_removeItem_of_removed st.storage "auth_token"
      "refresh_token"
  · exact getItem_removeItem
      (removeItem st.storage "auth_token") "refresh_token"

end IdBuild
